import Mathlib

/-!
Verification of the aggregation notebook of `spotify_summary`
(`notebooks/analysis.ipynb`).

The notebook loads a processed dataset (one row per play: `title`, `artist`,
and a `date` column parsed by `pd.to_datetime`), and defines two aggregation
functions, `get_top_artists` and `get_top_songs`.  Each one

  * filters the dataframe to a given month/year when *both* are supplied
    (`df[(df["date"].dt.month == month) & (df["date"].dt.year == year)]`),
  * tabulates group sizes with `df.value_counts(subset=..., ascending=False)`
    followed by `reset_index(name="play_count")`,
  * shifts the index to start at 1 (`df.index = df.index + 1`).

Two such rankings are then merged side by side with
`pd.concat([left, right], axis=1).fillna(0)` and truncated with
`.head(top_num)`.

The embedding below models a dataframe as an ordered `List PlayRecord`.
`pandas.DataFrame.value_counts` is modelled from its implementation: it is
`groupby(subset)` with the default `sort=True` — which lists each distinct
group key once, in ascending key order, with its group size (`groupCounts`
below) — followed by `sort_values(ascending=False)` on the sizes.
`sort_values` uses numpy's default quicksort, which is deterministic but
*unstable*: all it guarantees is a count-descending permutation of the
group table, fixing no particular relative order for tied counts (the
notebook's committed output indeed shows tie blocks in no consistent key
order).  The embedding therefore states every property that touches the
order of tied counts for an *arbitrary* sort function satisfying exactly
that contract (`descSortSpec`), and uses one admissible representative — a
count-descending insertion sort — as the executable model behind the
concrete `get_top_artists` / `get_top_songs` functions; no claim relies on
the representative's particular tie order.  What the pipeline does
guarantee is that the sort's input, the key-sorted group table, depends
only on the multiset of records, never on their order.
-/

namespace SpotifySummary

/-- A calendar date, the notebook's `date` column after `pd.to_datetime`;
`month` and `year` mirror the `.dt.month` and `.dt.year` accessors. -/
structure Date where
  year : Nat
  month : Nat
  day : Nat
deriving DecidableEq, Repr

/-- One row of the processed dataset: the columns of `processed_data.csv`
actually consumed by `get_top_artists` / `get_top_songs`. -/
structure PlayRecord where
  title : String
  artist : String
  date : Date
deriving DecidableEq, Repr

/-- One row of the table returned by `get_top_artists` / `get_top_songs`:
`rank` is the 1-based index produced by `df.index = df.index + 1`, `key` the
grouping column(s) restored by `reset_index`, `play_count` the group size. -/
structure RankingEntry (α : Type) where
  rank : Nat
  key : α
  play_count : Nat
deriving DecidableEq, Repr

/-- Play-count descending: the order `sort_values(ascending=False)` sorts by. -/
def countGE {α : Type} (p q : α × Nat) : Prop := q.2 ≤ p.2

instance {α : Type} : DecidableRel (@countGE α) := fun p q => Nat.decLe q.2 p.2

instance {α : Type} : IsTotal (α × Nat) countGE := ⟨fun p q => Nat.le_total q.2 p.2⟩

instance {α : Type} : IsTrans (α × Nat) countGE := ⟨fun _ _ _ h1 h2 => Nat.le_trans h2 h1⟩

/-- Model of the `groupby(subset, sort=True).size()` table inside
`value_counts`: each distinct grouping key once, in ascending key order,
with its group size `(df.map f).count k`. -/
def groupCounts {ρ α : Type} [DecidableEq α] (le : α → α → Prop) [DecidableRel le]
    (f : ρ → α) (df : List ρ) : List (α × Nat) :=
  ((df.map f).dedup.insertionSort le).map (fun k => (k, (df.map f).count k))

/-- The contract that `sort_values(ascending=False)` actually honours under
numpy's default (deterministic but unstable) quicksort: the result is a
permutation of the input in play-count-descending order; the relative order
of tied counts is unspecified.  Order-sensitive claims quantify over every
sort function satisfying this contract. -/
def descSortSpec {α : Type} (s : List (α × Nat) → List (α × Nat)) : Prop :=
  ∀ l, (s l).Perm l ∧ (s l).Pairwise countGE

/-- Model of `df.value_counts(subset, ascending=False)` + `reset_index`:
the key-sorted group table of `groupCounts`, rearranged into play-count
descending order.  The executable representative used here is a
count-descending insertion sort — one admissible instance of
`descSortSpec`; real pandas fixes no particular tie order, so no claim
relies on this representative's tie order beyond what `descSortSpec`
guarantees. -/
def value_counts {ρ α : Type} [DecidableEq α] (le : α → α → Prop) [DecidableRel le]
    (f : ρ → α) (df : List ρ) : List (α × Nat) :=
  (groupCounts le f df).insertionSort countGE

/-- Attach 1-based ranks: `withRanksFrom i` pairs successive rows with
indices `i, i+1, ...` (the notebook uses `i = 1`). -/
def withRanksFrom {α : Type} (i : Nat) : List (α × Nat) → List (RankingEntry α)
  | [] => []
  | kc :: l => ⟨i, kc.1, kc.2⟩ :: withRanksFrom (i + 1) l

/-- Model of `reset_index`: it gives positions `0, 1, ...`; `df.index = df.index + 1`
turns them into ranks `1, 2, ...`. -/
def withRanks {α : Type} (l : List (α × Nat)) : List (RankingEntry α) :=
  withRanksFrom 1 l

/-- Model of `if month is not None and year is not None:` — the boolean-mask filter
`df[(df["date"].dt.month == month) & (df["date"].dt.year == year)]`, applied
only when both arguments are present. -/
def monthYearFilter (month year : Option Nat) (df : List PlayRecord) : List PlayRecord :=
  match month, year with
  | some m, some y => df.filter (fun r => r.date.month == m && r.date.year == y)
  | _, _ => df

/-- Lexicographic (code-point) order on character lists, non-strict: this is
how Python compares the strings that pandas' sorted `groupby` orders keys
by — elementwise by code point, a proper prefix sorting first. -/
def charListLE : List Char → List Char → Bool
  | [], _ => true
  | _ :: _, [] => false
  | a :: as, b :: bs => if a = b then charListLE as bs else decide (a < b)

/-- Strict version of `charListLE`. -/
def charListLT : List Char → List Char → Bool
  | [], [] => false
  | [], _ :: _ => true
  | _ :: _, [] => false
  | a :: as, b :: bs => if a = b then charListLT as bs else decide (a < b)

/-- Python's `<=` on strings: lexicographic by code point. -/
def strLE (s t : String) : Prop := charListLE s.data t.data = true

/-- Python's `<` on strings: lexicographic by code point. -/
def strLT (s t : String) : Prop := charListLT s.data t.data = true

instance : DecidableRel strLE := fun s t => by
  unfold strLE; infer_instance

instance : DecidableRel strLT := fun s t => by
  unfold strLT; infer_instance

/-- Ascending order on the `(title, artist)` tuple keys of `get_top_songs`:
Python compares tuples lexicographically. -/
def songLE (p q : String × String) : Prop := strLT p.1 q.1 ∨ (p.1 = q.1 ∧ strLE p.2 q.2)

instance : DecidableRel songLE := fun p q => by
  unfold songLE; infer_instance

/-- Model of `get_top_artists(df, month, year)` from the notebook (the cosmetic
`label` argument only renames columns and is omitted): filter to the
month/year if both are given, `value_counts(subset=["artist"])`, reindex
from 1. -/
def get_top_artists (df : List PlayRecord) (month year : Option Nat) :
    List (RankingEntry String) :=
  withRanks (value_counts strLE PlayRecord.artist (monthYearFilter month year df))

/-- Model of `get_top_songs(df, month, year)` from the notebook: same pipeline with
`value_counts(subset=["title", "artist"])`. -/
def get_top_songs (df : List PlayRecord) (month year : Option Nat) :
    List (RankingEntry (String × String)) :=
  withRanks (value_counts songLE (fun r => (r.title, r.artist)) (monthYearFilter month year df))

/-- Version of `get_top_artists` with the caller's dataframe threaded through
explicitly.  Every pandas operation in the body (`df[mask]`,
`value_counts`, `reset_index`) returns a fresh object that the local name
`df` is rebound to; the assignments `df.index = ...` / `df.columns = ...`
mutate only that fresh local object.  The first component is the caller's
dataframe after the call. -/
def get_top_artists_full (df : List PlayRecord) (month year : Option Nat) :
    List PlayRecord × List (RankingEntry String) :=
  let local_df := monthYearFilter month year df
  (df, withRanks (value_counts strLE PlayRecord.artist local_df))

/-- Version of `get_top_songs` with the caller's dataframe threaded through explicitly;
see `get_top_artists_full`. -/
def get_top_songs_full (df : List PlayRecord) (month year : Option Nat) :
    List PlayRecord × List (RankingEntry (String × String)) :=
  let local_df := monthYearFilter month year df
  (df, withRanks (value_counts songLE (fun r => (r.title, r.artist)) local_df))

/-- One row of `pd.concat([left, right], axis=1).fillna(0)`: the cell values
of each side at this rank, with `none` / `0` for the `fillna(0)` placeholders
on a side that has no row at this index. -/
structure MergedRow (α : Type) where
  rank : Nat
  left_key : Option α
  left_count : Nat
  right_key : Option α
  right_count : Nat
deriving DecidableEq, Repr

/-- Model of `pd.concat([left, right], axis=1).fillna(0)` for two rankings whose
indices are `1..len` (as `get_top_artists`/`get_top_songs` always produce):
the union index is `1..max(len left, len right)` and each row pairs the two
sides' cells at that index, `fillna(0)` filling the missing side. -/
def mergeRankings {α : Type} (left right : List (RankingEntry α)) : List (MergedRow α) :=
  (List.range (max left.length right.length)).map (fun i =>
    { rank := i + 1
      left_key := (left.get? i).map RankingEntry.key
      left_count := ((left.get? i).map RankingEntry.play_count).getD 0
      right_key := (right.get? i).map RankingEntry.key
      right_count := ((right.get? i).map RankingEntry.play_count).getD 0 })

/-- The distinct elements of a list in order of *first* occurrence — the
order the spec's tie-break clause predicts for tied groups. -/
def firstOccKeys {α : Type} [DecidableEq α] (l : List α) : List α :=
  l.foldl (fun acc a => if a ∈ acc then acc else acc ++ [a]) []


/-- A concrete dataset for witnesses: artist "b" occurs first, artist "a"
second, both in April 2025, so the two artist groups have tied counts. -/
def exB : PlayRecord := ⟨"t1", "b", ⟨2025, 4, 1⟩⟩

def exA : PlayRecord := ⟨"t2", "a", ⟨2025, 4, 2⟩⟩

def exDataset : List PlayRecord := [exB, exA]

/-- The dataset `exDataset` with the two rows swapped: the same multiset of records. -/
def exDatasetSwapped : List PlayRecord := [exA, exB]

/-- The spec's Scenario C left ranking: one entry, rank 1, key "A", count 5. -/
def scenarioLeft : List (RankingEntry String) := [⟨1, "A", 5⟩]

/-! ### Supporting lemmas -/

theorem charListLE_total : ∀ as bs, charListLE as bs = true ∨ charListLE bs as = true
  | [], _ => Or.inl rfl
  | _ :: _, [] => Or.inr rfl
  | a :: as, b :: bs => by
    by_cases h : a = b
    · subst h
      simpa [charListLE] using charListLE_total as bs
    · rcases lt_or_gt_of_ne h with hlt | hgt
      · left
        simp [charListLE, h, hlt]
      · right
        simp [charListLE, Ne.symm h, hgt]

theorem charListLE_trans : ∀ as bs cs, charListLE as bs = true → charListLE bs cs = true →
    charListLE as cs = true
  | [], _, _, _, _ => rfl
  | _ :: _, [], _, h1, _ => by simp [charListLE] at h1
  | _ :: _, _ :: _, [], _, h2 => by simp [charListLE] at h2
  | a :: as, b :: bs, c :: cs, h1, h2 => by
    by_cases hab : a = b <;> by_cases hbc : b = c
    · subst hab; subst hbc
      simp only [charListLE, if_pos rfl] at h1 h2 ⊢
      exact charListLE_trans as bs cs h1 h2
    · subst hab
      simp only [charListLE, if_neg hbc] at h2 ⊢
      exact h2
    · subst hbc
      simp only [charListLE, if_neg hab] at h1 ⊢
      exact h1
    · simp only [charListLE, if_neg hab] at h1
      simp only [charListLE, if_neg hbc] at h2
      have hac : a < c := lt_trans (of_decide_eq_true h1) (of_decide_eq_true h2)
      simp [charListLE, ne_of_lt hac, hac]

theorem charListLE_antisymm : ∀ as bs, charListLE as bs = true → charListLE bs as = true →
    as = bs
  | [], [], _, _ => rfl
  | [], _ :: _, _, h2 => by simp [charListLE] at h2
  | _ :: _, [], h1, _ => by simp [charListLE] at h1
  | a :: as, b :: bs, h1, h2 => by
    by_cases hab : a = b
    · subst hab
      simp only [charListLE, if_pos rfl] at h1 h2
      rw [charListLE_antisymm as bs h1 h2]
    · simp only [charListLE, if_neg hab, if_neg (Ne.symm hab)] at h1 h2
      exact absurd (of_decide_eq_true h2) (lt_asymm (of_decide_eq_true h1))

theorem charListLT_iff : ∀ as bs, charListLT as bs = true ↔ (charListLE as bs = true ∧ as ≠ bs)
  | [], [] => by simp [charListLT, charListLE]
  | [], _ :: _ => by simp [charListLT, charListLE]
  | _ :: _, [] => by simp [charListLT, charListLE]
  | a :: as, b :: bs => by
    by_cases hab : a = b
    · subst hab
      simp only [charListLT, charListLE, if_pos rfl, ne_eq, List.cons.injEq, true_and]
      exact charListLT_iff as bs
    · simp [charListLT, charListLE, if_neg hab, List.cons.injEq, hab]

theorem str_eq_of_data_eq {s t : String} (h : s.data = t.data) : s = t := by
  cases s; cases t
  exact congrArg String.mk h

theorem strLE_total (s t : String) : strLE s t ∨ strLE t s :=
  charListLE_total s.data t.data

theorem strLE_trans {s t u : String} (h1 : strLE s t) (h2 : strLE t u) : strLE s u :=
  charListLE_trans s.data t.data u.data h1 h2

theorem strLE_antisymm {s t : String} (h1 : strLE s t) (h2 : strLE t s) : s = t :=
  str_eq_of_data_eq (charListLE_antisymm s.data t.data h1 h2)

theorem strLT_iff {s t : String} : strLT s t ↔ (strLE s t ∧ s ≠ t) := by
  unfold strLT strLE
  rw [charListLT_iff]
  constructor
  · rintro ⟨h1, h2⟩
    exact ⟨h1, fun he => h2 (by rw [he])⟩
  · rintro ⟨h1, h2⟩
    exact ⟨h1, fun he => h2 (str_eq_of_data_eq he)⟩

instance : IsTotal String strLE := ⟨strLE_total⟩

instance : IsTrans String strLE := ⟨fun _ _ _ => strLE_trans⟩

instance : IsAntisymm String strLE := ⟨fun _ _ => strLE_antisymm⟩

theorem songLE_total (p q : String × String) : songLE p q ∨ songLE q p := by
  unfold songLE
  by_cases h : p.1 = q.1
  · rcases strLE_total p.2 q.2 with h2 | h2
    · exact Or.inl (Or.inr ⟨h, h2⟩)
    · exact Or.inr (Or.inr ⟨h.symm, h2⟩)
  · rcases strLE_total p.1 q.1 with h1 | h1
    · exact Or.inl (Or.inl (strLT_iff.mpr ⟨h1, h⟩))
    · exact Or.inr (Or.inl (strLT_iff.mpr ⟨h1, Ne.symm h⟩))

theorem strLT_trans {s t u : String} (h1 : strLT s t) (h2 : strLT t u) : strLT s u := by
  rcases strLT_iff.mp h1 with ⟨hle1, hne1⟩
  rcases strLT_iff.mp h2 with ⟨hle2, hne2⟩
  refine strLT_iff.mpr ⟨strLE_trans hle1 hle2, fun he => ?_⟩
  subst he
  exact hne1 (strLE_antisymm hle1 hle2)

theorem strLT_irrefl {s : String} (h : strLT s s) : False :=
  (strLT_iff.mp h).2 rfl

theorem songLE_trans {p q s : String × String} (h1 : songLE p q) (h2 : songLE q s) :
    songLE p s := by
  unfold songLE at h1 h2 ⊢
  rcases h1 with h1 | ⟨h1, h1'⟩ <;> rcases h2 with h2 | ⟨h2, h2'⟩
  · exact Or.inl (strLT_trans h1 h2)
  · exact Or.inl (h2 ▸ h1)
  · exact Or.inl (h1 ▸ h2)
  · exact Or.inr ⟨h1.trans h2, strLE_trans h1' h2'⟩

theorem songLE_antisymm {p q : String × String} (h1 : songLE p q) (h2 : songLE q p) : p = q := by
  unfold songLE at h1 h2
  rcases h1 with h1 | ⟨h1, h1'⟩ <;> rcases h2 with h2 | ⟨h2, h2'⟩
  · exact absurd (strLT_trans h1 h2) strLT_irrefl
  · exact absurd (h2 ▸ h1) strLT_irrefl
  · exact absurd (h1 ▸ h2) strLT_irrefl
  · exact Prod.ext h1 (strLE_antisymm h1' h2')

instance : IsTotal (String × String) songLE := ⟨songLE_total⟩

instance : IsTrans (String × String) songLE := ⟨fun _ _ _ => songLE_trans⟩

instance : IsAntisymm (String × String) songLE := ⟨fun _ _ => songLE_antisymm⟩

theorem value_counts_length {ρ α : Type} [DecidableEq α] (le : α → α → Prop)
    [DecidableRel le] (f : ρ → α) (df : List ρ) :
    (value_counts le f df).length = (df.map f).dedup.length := by
  unfold value_counts groupCounts
  rw [List.length_insertionSort, List.length_map, List.length_insertionSort]

theorem mem_value_counts {ρ α : Type} [DecidableEq α] {le : α → α → Prop}
    [DecidableRel le] {f : ρ → α} {df : List ρ} {kc : α × Nat} :
    kc ∈ value_counts le f df ↔ kc.1 ∈ df.map f ∧ kc.2 = (df.map f).count kc.1 := by
  unfold value_counts groupCounts
  rw [List.mem_insertionSort, List.mem_map]
  constructor
  · rintro ⟨k, hk, rfl⟩
    exact ⟨List.mem_dedup.mp ((List.mem_insertionSort le).mp hk), rfl⟩
  · rintro ⟨h1, h2⟩
    exact ⟨kc.1, (List.mem_insertionSort le).mpr (List.mem_dedup.mpr h1),
      Prod.ext rfl h2.symm⟩

theorem count_map_eq_filter_length {ρ α : Type} [DecidableEq α] (f : ρ → α) (k : α) :
    ∀ df : List ρ, (df.map f).count k = (df.filter (fun r => f r == k)).length
  | [] => rfl
  | r :: df => by
    simp only [List.map_cons, List.count_cons, List.filter_cons]
    by_cases h : (f r == k) = true
    · simp [h, count_map_eq_filter_length f k df]
    · simp [h, count_map_eq_filter_length f k df]

/-- The key-sorted group table depends only on the multiset of rows, not on
their order: the sorted `groupby` forgets the input order entirely. -/
theorem groupCounts_eq_of_perm {ρ α : Type} [DecidableEq α] (le : α → α → Prop)
    [DecidableRel le] [IsTotal α le] [IsTrans α le] [IsAntisymm α le]
    {f : ρ → α} {df df' : List ρ} (h : df.Perm df') :
    groupCounts le f df = groupCounts le f df' := by
  unfold groupCounts
  have hm : (df.map f).Perm (df'.map f) := h.map f
  have hs : (df.map f).dedup.insertionSort le = (df'.map f).dedup.insertionSort le :=
    List.eq_of_perm_of_sorted
      (((List.perm_insertionSort le _).trans hm.dedup).trans
        (List.perm_insertionSort le _).symm)
      (List.sorted_insertionSort le _) (List.sorted_insertionSort le _)
  have hc : (fun k => (k, (df.map f).count k)) = (fun k => (k, (df'.map f).count k)) :=
    funext (fun k => by rw [hm.count_eq])
  rw [hs, hc]

/-- The executable representative sort satisfies the contract of
`sort_values(ascending=False)`. -/
theorem insertionSort_descSortSpec {α : Type} :
    descSortSpec (fun l : List (α × Nat) => l.insertionSort countGE) :=
  fun l => ⟨List.perm_insertionSort countGE l, List.sorted_insertionSort countGE l⟩

theorem mem_withRanksFrom {α : Type} {e : RankingEntry α} :
    ∀ {i : Nat} {l : List (α × Nat)}, e ∈ withRanksFrom i l →
      (e.key, e.play_count) ∈ l ∧ i ≤ e.rank := by
  intro i l
  induction l generalizing i with
  | nil => intro h; simp [withRanksFrom] at h
  | cons kc l ih =>
    intro h
    rw [withRanksFrom] at h
    rcases List.mem_cons.mp h with rfl | h
    · exact ⟨by rw [Prod.mk.eta]; exact List.mem_cons_self _ _, le_refl _⟩
    · rcases ih h with ⟨h1, h2⟩
      exact ⟨List.mem_cons_of_mem _ h1, le_trans (Nat.le_succ i) h2⟩

theorem exists_mem_withRanksFrom {α : Type} {kc : α × Nat} :
    ∀ {i : Nat} {l : List (α × Nat)}, kc ∈ l →
      ∃ e ∈ withRanksFrom i l, e.key = kc.1 ∧ e.play_count = kc.2 := by
  intro i l
  induction l generalizing i with
  | nil => intro h; simp at h
  | cons kc' l ih =>
    intro h
    rw [withRanksFrom]
    rcases List.mem_cons.mp h with rfl | h
    · exact ⟨⟨i, kc.1, kc.2⟩, List.mem_cons_self _ _, rfl, rfl⟩
    · rcases ih (i := i + 1) h with ⟨e, he, h1, h2⟩
      exact ⟨e, List.mem_cons_of_mem _ he, h1, h2⟩

theorem pairwise_withRanksFrom {α : Type} {R : (α × Nat) → (α × Nat) → Prop} :
    ∀ {i : Nat} {l : List (α × Nat)}, l.Pairwise R →
      (withRanksFrom i l).Pairwise
        (fun e e' => R (e.key, e.play_count) (e'.key, e'.play_count)) := by
  intro i l
  induction l generalizing i with
  | nil => intro _; exact List.Pairwise.nil
  | cons kc l ih =>
    intro h
    rw [withRanksFrom]
    refine List.Pairwise.cons ?_ (ih (List.pairwise_cons.mp h).2)
    intro e he
    have h1 := (mem_withRanksFrom he).1
    have h2 := (List.pairwise_cons.mp h).1 _ h1
    simpa using h2

theorem withRanksFrom_length {α : Type} :
    ∀ (i : Nat) (l : List (α × Nat)), (withRanksFrom i l).length = l.length
  | _, [] => rfl
  | i, _ :: l => by
    rw [withRanksFrom, List.length_cons, List.length_cons, withRanksFrom_length (i + 1) l]

theorem withRanksFrom_get {α : Type} :
    ∀ (i : Nat) (l : List (α × Nat)) (j : Nat) (h1 : j < (withRanksFrom i l).length)
      (h2 : j < l.length),
      (withRanksFrom i l).get ⟨j, h1⟩ =
        ⟨i + j, (l.get ⟨j, h2⟩).1, (l.get ⟨j, h2⟩).2⟩
  | i, kc :: l, 0, _, _ => by simp [withRanksFrom]
  | i, kc :: l, j + 1, h1, h2 => by
    have h2' : j < l.length := Nat.lt_of_succ_lt_succ h2
    have h1' : j < (withRanksFrom (i + 1) l).length := by
      rw [withRanksFrom_length]
      exact h2'
    show (withRanksFrom (i + 1) l).get ⟨j, h1'⟩ = _
    rw [withRanksFrom_get (i + 1) l j h1' h2']
    have hn : i + 1 + j = i + (j + 1) := by omega
    rw [hn]
    rfl

theorem withRanksFrom_map_rank {α : Type} :
    ∀ (i : Nat) (l : List (α × Nat)),
      (withRanksFrom i l).map RankingEntry.rank = List.range' i l.length
  | _, [] => rfl
  | i, kc :: l => by
    rw [withRanksFrom, List.map_cons, withRanksFrom_map_rank (i + 1) l, List.length_cons]
    rfl

theorem take_range' : ∀ (m s n : Nat), (List.range' s n).take m = List.range' s (min m n)
  | 0, s, n => by simp
  | _ + 1, s, 0 => by simp
  | m + 1, s, n + 1 => by
    rw [List.range', List.take_succ_cons, take_range' m (s + 1) n]
    have : min (m + 1) (n + 1) = min m n + 1 := by omega
    rw [this, List.range']

theorem monthYearFilter_of_none {df : List PlayRecord} {month year : Option Nat}
    (h : month = none ∨ year = none) : monthYearFilter month year df = df := by
  rcases h with rfl | rfl
  · rfl
  · cases month <;> rfl

theorem monthYearFilter_perm (month year : Option Nat) {df df' : List PlayRecord}
    (h : df.Perm df') :
    (monthYearFilter month year df).Perm (monthYearFilter month year df') := by
  cases month with
  | none => exact h
  | some m =>
    cases year with
    | none => exact h
    | some y => exact h.filter _

theorem mergeRankings_length {α : Type} (left right : List (RankingEntry α)) :
    (mergeRankings left right).length = max left.length right.length := by
  unfold mergeRankings
  rw [List.length_map, List.length_range]

theorem mergeRankings_get? {α : Type} (left right : List (RankingEntry α)) (i : Nat)
    (h : i < max left.length right.length) :
    (mergeRankings left right).get? i = some
      { rank := i + 1
        left_key := (left.get? i).map RankingEntry.key
        left_count := ((left.get? i).map RankingEntry.play_count).getD 0
        right_key := (right.get? i).map RankingEntry.key
        right_count := ((right.get? i).map RankingEntry.play_count).getD 0 } := by
  unfold mergeRankings
  rw [List.get?_map, List.get?_range h]
  rfl

theorem mergeRankings_map_rank {α : Type} (left right : List (RankingEntry α)) :
    (mergeRankings left right).map MergedRow.rank
      = List.range' 1 (max left.length right.length) := by
  unfold mergeRankings
  rw [List.map_map, List.range'_eq_map_range]
  apply List.map_congr_left
  intro i _
  exact Nat.add_comm i 1

theorem range_map_side {α : Type} :
    ∀ (sel : List (RankingEntry α)) (n : Nat), sel.length ≤ n →
      (List.range n).map (fun i => ((sel.get? i).map RankingEntry.key,
          ((sel.get? i).map RankingEntry.play_count).getD 0))
        = sel.map (fun e => (some e.key, e.play_count))
          ++ List.replicate (n - sel.length) ((none : Option α), 0)
  | [], n, _ => by
    simp only [List.map_nil, List.nil_append, List.length_nil, Nat.sub_zero]
    refine List.eq_replicate.mpr ⟨?_, ?_⟩
    · rw [List.length_map, List.length_range]
    · intro b hb
      rcases List.mem_map.mp hb with ⟨i, _, rfl⟩
      rfl
  | e :: sel, n, h => by
    cases n with
    | zero => simp at h
    | succ m =>
      have h' : sel.length ≤ m := Nat.le_of_succ_le_succ h
      rw [List.range_succ_eq_map, List.map_cons, List.map_map, List.map_cons,
        List.cons_append, List.length_cons, Nat.succ_sub_succ]
      congr 1
      exact range_map_side sel m h'

theorem mergeRankings_left_proj {α : Type} (left right : List (RankingEntry α)) :
    (mergeRankings left right).map (fun row => (row.left_key, row.left_count))
      = left.map (fun e => (some e.key, e.play_count))
        ++ List.replicate (max left.length right.length - left.length)
          ((none : Option α), 0) := by
  unfold mergeRankings
  rw [List.map_map]
  exact range_map_side left _ (le_max_left _ _)

theorem mergeRankings_right_proj {α : Type} (left right : List (RankingEntry α)) :
    (mergeRankings left right).map (fun row => (row.right_key, row.right_count))
      = right.map (fun e => (some e.key, e.play_count))
        ++ List.replicate (max left.length right.length - right.length)
          ((none : Option α), 0) := by
  unfold mergeRankings
  rw [List.map_map]
  exact range_map_side right _ (le_max_right _ _)

theorem withRanks_take_length {α : Type} (l : List (α × Nat)) (limit : Nat) :
    ((withRanks l).take limit).length = min limit l.length := by
  unfold withRanks
  rw [List.length_take, withRanksFrom_length]

theorem withRanks_take_map_rank {α : Type} (l : List (α × Nat)) (limit : Nat) :
    ((withRanks l).take limit).map RankingEntry.rank
      = List.range' 1 (((withRanks l).take limit).length) := by
  unfold withRanks
  rw [List.map_take, withRanksFrom_map_rank, take_range', List.length_take,
    withRanksFrom_length]

theorem ranking_entry_spec {α : Type} [DecidableEq α] {le : α → α → Prop} [DecidableRel le]
    {f : PlayRecord → α} {df' : List PlayRecord} {e : RankingEntry α}
    (he : e ∈ withRanks (value_counts le f df')) :
    1 ≤ e.rank ∧ 1 ≤ e.play_count ∧ ∃ r ∈ df', f r = e.key := by
  rcases mem_withRanksFrom he with ⟨h1, h2⟩
  have h3 := mem_value_counts.mp h1
  refine ⟨h2, ?_, ?_⟩
  · have h4 : e.play_count = List.count e.key (List.map f df') := h3.2
    rw [h4]
    exact List.count_pos_iff.mpr h3.1
  · rcases List.mem_map.mp h3.1 with ⟨r, hr, hrk⟩
    exact ⟨r, hr, hrk⟩

theorem ranking_count_spec {α : Type} [DecidableEq α] (le : α → α → Prop) [DecidableRel le]
    (f : PlayRecord → α) (p : PlayRecord → Bool) (df : List PlayRecord) :
    (∀ e ∈ withRanks (value_counts le f (df.filter p)),
        e.play_count = (df.filter (fun r => (f r == e.key) && p r)).length)
    ∧ ∀ k : α, (∃ e ∈ withRanks (value_counts le f (df.filter p)), e.key = k)
        ↔ ∃ r ∈ df, p r = true ∧ f r = k := by
  constructor
  · intro e he
    have h3 := mem_value_counts.mp (mem_withRanksFrom he).1
    calc e.play_count = ((df.filter p).map f).count e.key := h3.2
      _ = ((df.filter p).filter (fun r => f r == e.key)).length :=
        count_map_eq_filter_length f e.key (df.filter p)
      _ = (df.filter (fun r => (f r == e.key) && p r)).length := by
        rw [List.filter_filter]
  · intro k
    constructor
    · rintro ⟨e, he, rfl⟩
      have h3 := mem_value_counts.mp (mem_withRanksFrom he).1
      rcases List.mem_map.mp h3.1 with ⟨r, hr, hrk⟩
      rcases List.mem_filter.mp hr with ⟨hr1, hr2⟩
      exact ⟨r, hr1, hr2, hrk⟩
    · rintro ⟨r, hr, hp, rfl⟩
      have hk : f r ∈ (df.filter p).map f :=
        List.mem_map.mpr ⟨r, List.mem_filter.mpr ⟨hr, hp⟩, rfl⟩
      have hkc : ((f r, ((df.filter p).map f).count (f r)) : α × Nat)
          ∈ value_counts le f (df.filter p) := mem_value_counts.mpr ⟨hk, rfl⟩
      rcases exists_mem_withRanksFrom (i := 1) hkc with ⟨e, he, h1, _⟩
      exact ⟨e, he, h1⟩

/-! ### Claims -/

/-- Claim C1, counterexample: the claim predicts that tied-count groups
appear in first-occurrence order.  On the dataset `[exB, exA]` (artist "b"
first, artist "a" second, both with one play) all groups are tied and the
first-occurrence order is `["b", "a"]`, yet the ranking lists `["a", "b"]`:
the sorted `groupby` inside `value_counts` orders tied groups by ascending
key, not by occurrence. -/
theorem claim_C1_counterexample :
    (∀ e ∈ get_top_artists exDataset none none, e.play_count = 1)
    ∧ firstOccKeys (exDataset.map PlayRecord.artist) = ["b", "a"]
    ∧ (get_top_artists exDataset none none).map RankingEntry.key = ["a", "b"]
    ∧ (get_top_artists exDataset none none).map RankingEntry.key
        ≠ firstOccKeys (exDataset.map PlayRecord.artist) := by decide

/-- Claim C1 (amended): the Aggregator sorts groups by play count
descending, and its rows are exactly the rows of the key-sorted `groupby`
table; the relative order of tied-count groups is whatever the underlying
`sort_values` implementation produces from that table — numpy's unstable
quicksort fixes no particular tie order, and first-occurrence order in
particular is refuted by the counterexample.  For any fixed sort
implementation satisfying the sort's contract (a count-descending
permutation), two datasets that differ only in insertion order produce
identical output, because the sort's input — the key-sorted group table —
already depends only on the multiset of records.  The notebook's
`get_top_artists` / `get_top_songs` are the pipeline at this file's
executable representative sort. -/
theorem claim_C1_amended
    (s : List (String × Nat) → List (String × Nat))
    (t : List ((String × String) × Nat) → List ((String × String) × Nat))
    (hs : descSortSpec s) (ht : descSortSpec t)
    (df df' : List PlayRecord) (month year : Option Nat) (hperm : df.Perm df') :
    ((withRanks (s (groupCounts strLE PlayRecord.artist
        (monthYearFilter month year df)))).Pairwise
      (fun e e' => e'.play_count ≤ e.play_count))
    ∧ ((withRanks (t (groupCounts songLE (fun r => (r.title, r.artist))
        (monthYearFilter month year df)))).Pairwise
      (fun e e' => e'.play_count ≤ e.play_count))
    ∧ (s (groupCounts strLE PlayRecord.artist (monthYearFilter month year df))).Perm
        (groupCounts strLE PlayRecord.artist (monthYearFilter month year df))
    ∧ (t (groupCounts songLE (fun r => (r.title, r.artist))
        (monthYearFilter month year df))).Perm
        (groupCounts songLE (fun r => (r.title, r.artist)) (monthYearFilter month year df))
    ∧ withRanks (s (groupCounts strLE PlayRecord.artist (monthYearFilter month year df)))
        = withRanks (s (groupCounts strLE PlayRecord.artist (monthYearFilter month year df')))
    ∧ withRanks (t (groupCounts songLE (fun r => (r.title, r.artist))
        (monthYearFilter month year df)))
        = withRanks (t (groupCounts songLE (fun r => (r.title, r.artist))
          (monthYearFilter month year df')))
    ∧ get_top_artists df month year
        = withRanks ((groupCounts strLE PlayRecord.artist
            (monthYearFilter month year df)).insertionSort countGE)
    ∧ get_top_songs df month year
        = withRanks ((groupCounts songLE (fun r => (r.title, r.artist))
            (monthYearFilter month year df)).insertionSort countGE) := by
  have ha : groupCounts strLE PlayRecord.artist (monthYearFilter month year df)
      = groupCounts strLE PlayRecord.artist (monthYearFilter month year df') :=
    groupCounts_eq_of_perm strLE (monthYearFilter_perm month year hperm)
  have hb : groupCounts songLE (fun r => (r.title, r.artist)) (monthYearFilter month year df)
      = groupCounts songLE (fun r => (r.title, r.artist)) (monthYearFilter month year df') :=
    groupCounts_eq_of_perm songLE (monthYearFilter_perm month year hperm)
  refine ⟨?_, ?_, (hs _).1, (ht _).1, by rw [ha], by rw [hb], rfl, rfl⟩
  · exact pairwise_withRanksFrom (i := 1) (hs _).2
  · exact pairwise_withRanksFrom (i := 1) (ht _).2

/-- Claim C1 (amended), witness: the theorem applied at the executable
representative sort (which satisfies the contract) and at the concrete
tied dataset and its two-row permutation. -/
theorem claim_C1_amended_witness :
    descSortSpec (fun l : List (String × Nat) => l.insertionSort countGE)
    ∧ descSortSpec (fun l : List ((String × String) × Nat) => l.insertionSort countGE)
    ∧ exDataset.Perm exDatasetSwapped
    ∧ (((get_top_artists exDataset none none).Pairwise
          (fun e e' => e'.play_count ≤ e.play_count))
      ∧ ((get_top_songs exDataset none none).Pairwise
          (fun e e' => e'.play_count ≤ e.play_count))
      ∧ (value_counts strLE PlayRecord.artist (monthYearFilter none none exDataset)).Perm
          (groupCounts strLE PlayRecord.artist (monthYearFilter none none exDataset))
      ∧ (value_counts songLE (fun r => (r.title, r.artist))
          (monthYearFilter none none exDataset)).Perm
          (groupCounts songLE (fun r => (r.title, r.artist))
            (monthYearFilter none none exDataset))
      ∧ get_top_artists exDataset none none = get_top_artists exDatasetSwapped none none
      ∧ get_top_songs exDataset none none = get_top_songs exDatasetSwapped none none
      ∧ get_top_artists exDataset none none
          = withRanks ((groupCounts strLE PlayRecord.artist
              (monthYearFilter none none exDataset)).insertionSort countGE)
      ∧ get_top_songs exDataset none none
          = withRanks ((groupCounts songLE (fun r => (r.title, r.artist))
              (monthYearFilter none none exDataset)).insertionSort countGE)) :=
  ⟨insertionSort_descSortSpec, insertionSort_descSortSpec, by decide,
    claim_C1_amended (fun l => l.insertionSort countGE) (fun l => l.insertionSort countGE)
      insertionSort_descSortSpec insertionSort_descSortSpec
      exDataset exDatasetSwapped none none (by decide)⟩

/-- Claim C2: for every dataset and `limit ≥ 1`, the ranking truncated with
`.head(limit)` has length `min(limit, number of distinct grouping keys in
the filtered dataset)` and its ranks are the contiguous integers
`1, 2, ...` with no gaps. -/
theorem claim_C2 (df : List PlayRecord) (month year : Option Nat) (limit : Nat)
    (_hlim : 1 ≤ limit) :
    (((get_top_artists df month year).take limit).length
        = min limit ((monthYearFilter month year df).map PlayRecord.artist).dedup.length
      ∧ ((get_top_artists df month year).take limit).map RankingEntry.rank
        = List.range' 1 (((get_top_artists df month year).take limit).length))
    ∧ (((get_top_songs df month year).take limit).length
        = min limit
          ((monthYearFilter month year df).map (fun r => (r.title, r.artist))).dedup.length
      ∧ ((get_top_songs df month year).take limit).map RankingEntry.rank
        = List.range' 1 (((get_top_songs df month year).take limit).length)) := by
  unfold get_top_artists get_top_songs
  refine ⟨⟨?_, ?_⟩, ?_, ?_⟩
  · rw [withRanks_take_length, value_counts_length]
  · exact withRanks_take_map_rank _ limit
  · rw [withRanks_take_length, value_counts_length]
  · exact withRanks_take_map_rank _ limit

/-- Claim C2, witness: the theorem applied to the concrete dataset with
`limit = 10`. -/
theorem claim_C2_witness :
    1 ≤ 10
    ∧ ((((get_top_artists exDataset none none).take 10).length
          = min 10 ((monthYearFilter none none exDataset).map PlayRecord.artist).dedup.length
        ∧ ((get_top_artists exDataset none none).take 10).map RankingEntry.rank
          = List.range' 1 (((get_top_artists exDataset none none).take 10).length))
      ∧ (((get_top_songs exDataset none none).take 10).length
          = min 10
            ((monthYearFilter none none exDataset).map
              (fun r => (r.title, r.artist))).dedup.length
        ∧ ((get_top_songs exDataset none none).take 10).map RankingEntry.rank
          = List.range' 1 (((get_top_songs exDataset none none).take 10).length))) :=
  ⟨by decide, claim_C2 exDataset none none 10 (by decide)⟩

/-- Claim C3: for every pair of rankings and every 1-based rank position up
to the longer length, the merged table's row at that position pairs the two
sides' entries at that position; a side with no entry there is represented
by the `fillna(0)` placeholder: absent key and play count 0. -/
theorem claim_C3 {α : Type} (left right : List (RankingEntry α)) (i : Nat)
    (h : i < max left.length right.length) :
    ∃ row, (mergeRankings left right).get? i = some row
      ∧ row.rank = i + 1
      ∧ (∀ hl : i < left.length,
          row.left_key = some ((left.get ⟨i, hl⟩).key)
          ∧ row.left_count = (left.get ⟨i, hl⟩).play_count)
      ∧ (left.length ≤ i → row.left_key = none ∧ row.left_count = 0)
      ∧ (∀ hr : i < right.length,
          row.right_key = some ((right.get ⟨i, hr⟩).key)
          ∧ row.right_count = (right.get ⟨i, hr⟩).play_count)
      ∧ (right.length ≤ i → row.right_key = none ∧ row.right_count = 0) := by
  refine ⟨_, mergeRankings_get? left right i h, rfl, ?_, ?_, ?_, ?_⟩
  · intro hl
    rw [List.get?_eq_get hl]
    exact ⟨rfl, rfl⟩
  · intro hl
    rw [List.get?_eq_none.mpr hl]
    exact ⟨rfl, rfl⟩
  · intro hr
    rw [List.get?_eq_get hr]
    exact ⟨rfl, rfl⟩
  · intro hr
    rw [List.get?_eq_none.mpr hr]
    exact ⟨rfl, rfl⟩

/-- Claim C3, witness: the spec's Scenario C — left has the single entry
(rank 1, key "A", count 5), right is empty; the merge has exactly one row
pairing ("A", 5) with the (absent, 0) placeholder. -/
theorem claim_C3_witness :
    0 < max scenarioLeft.length ([] : List (RankingEntry String)).length
    ∧ (∃ row, (mergeRankings scenarioLeft ([] : List (RankingEntry String))).get? 0 = some row
        ∧ row.rank = 0 + 1
        ∧ (∀ hl : 0 < scenarioLeft.length,
            row.left_key = some ((scenarioLeft.get ⟨0, hl⟩).key)
            ∧ row.left_count = (scenarioLeft.get ⟨0, hl⟩).play_count)
        ∧ (scenarioLeft.length ≤ 0 → row.left_key = none ∧ row.left_count = 0)
        ∧ (∀ hr : 0 < ([] : List (RankingEntry String)).length,
            row.right_key = some ((([] : List (RankingEntry String)).get ⟨0, hr⟩).key)
            ∧ row.right_count = (([] : List (RankingEntry String)).get ⟨0, hr⟩).play_count)
        ∧ (([] : List (RankingEntry String)).length ≤ 0 →
            row.right_key = none ∧ row.right_count = 0))
    ∧ mergeRankings scenarioLeft ([] : List (RankingEntry String))
        = [{ rank := 1, left_key := some "A", left_count := 5,
             right_key := none, right_count := 0 }] :=
  ⟨by decide, claim_C3 scenarioLeft ([] : List (RankingEntry String)) 0 (by decide), by decide⟩

/-- Claim C4: for rankings with contiguous 1-based ranks, the merged table
has exactly `max(len(left), len(right))` rows. -/
theorem claim_C4 {α : Type} (left right : List (RankingEntry α))
    (_hl : left.map RankingEntry.rank = List.range' 1 left.length)
    (_hr : right.map RankingEntry.rank = List.range' 1 right.length) :
    (mergeRankings left right).length = max left.length right.length :=
  mergeRankings_length left right

/-- Claim C4, witness: the theorem applied to the Scenario C rankings. -/
theorem claim_C4_witness :
    scenarioLeft.map RankingEntry.rank = List.range' 1 scenarioLeft.length
    ∧ ([] : List (RankingEntry String)).map RankingEntry.rank
        = List.range' 1 ([] : List (RankingEntry String)).length
    ∧ (mergeRankings scenarioLeft ([] : List (RankingEntry String))).length
        = max scenarioLeft.length ([] : List (RankingEntry String)).length :=
  ⟨by decide, by decide,
    claim_C4 scenarioLeft ([] : List (RankingEntry String)) (by decide) (by decide)⟩

/-- Claim C5: the merged table loses no entry of either input: projecting its
rows onto one side's (key, count) cells gives exactly that input, in order
and at its original rank positions, followed by the fill placeholders — so
every entry appears in exactly one row at its original rank, nothing is
dropped or reordered, and row ranks are the positional `1, 2, ...`, never
recomputed. -/
theorem claim_C5 {α : Type} (left right : List (RankingEntry α)) :
    ((mergeRankings left right).map (fun row => (row.left_key, row.left_count))
        = left.map (fun e => (some e.key, e.play_count))
          ++ List.replicate (max left.length right.length - left.length)
            ((none : Option α), 0))
    ∧ ((mergeRankings left right).map (fun row => (row.right_key, row.right_count))
        = right.map (fun e => (some e.key, e.play_count))
          ++ List.replicate (max left.length right.length - right.length)
            ((none : Option α), 0))
    ∧ (mergeRankings left right).map MergedRow.rank
        = List.range' 1 (max left.length right.length) :=
  ⟨mergeRankings_left_proj left right, mergeRankings_right_proj left right,
    mergeRankings_map_rank left right⟩

/-- Claim C6: with a month/year filter, the play count of every ranking
entry counts exactly the records whose derived date lies in that calendar
month and year (and carry the entry's key); and a key appears in the
ranking exactly when some record inside that calendar month has it. -/
theorem claim_C6 (df : List PlayRecord) (m y : Nat) :
    (∀ e ∈ get_top_artists df (some m) (some y),
        e.play_count = (df.filter (fun r =>
          (r.artist == e.key) && (r.date.month == m && r.date.year == y))).length)
    ∧ (∀ k : String, (∃ e ∈ get_top_artists df (some m) (some y), e.key = k)
        ↔ ∃ r ∈ df, (r.date.month == m && r.date.year == y) = true ∧ r.artist = k)
    ∧ (∀ e ∈ get_top_songs df (some m) (some y),
        e.play_count = (df.filter (fun r =>
          (decide ((r.title, r.artist) = e.key))
            && (r.date.month == m && r.date.year == y))).length)
    ∧ (∀ k : String × String, (∃ e ∈ get_top_songs df (some m) (some y), e.key = k)
        ↔ ∃ r ∈ df, (r.date.month == m && r.date.year == y) = true
            ∧ (r.title, r.artist) = k) := by
  have ha := ranking_count_spec strLE PlayRecord.artist
    (fun r => r.date.month == m && r.date.year == y) df
  have hs := ranking_count_spec songLE (fun r => (r.title, r.artist))
    (fun r => r.date.month == m && r.date.year == y) df
  exact ⟨ha.1, ha.2, hs.1, hs.2⟩

/-- Claim C6, witness: both April-2025 records of the concrete dataset are
counted for their artists; the count equation instantiated at the rank-1
entry. -/
theorem claim_C6_witness :
    ((⟨1, "a", 1⟩ : RankingEntry String) ∈ get_top_artists exDataset (some 4) (some 2025))
    ∧ (⟨1, "a", 1⟩ : RankingEntry String).play_count
        = (exDataset.filter (fun r =>
            (r.artist == "a") && (r.date.month == 4 && r.date.year == 2025))).length :=
  ⟨by decide, (claim_C6 exDataset 4 2025).1 ⟨1, "a", 1⟩ (by decide)⟩

/-- Claim C7: the empty dataset, and any dataset whose records all fall
outside the requested month/year, produce an empty ranking rather than an
error. -/
theorem claim_C7 :
    (∀ month year : Option Nat,
      get_top_artists [] month year = [] ∧ get_top_songs [] month year = [])
    ∧ ∀ (df : List PlayRecord) (m y : Nat),
        df.filter (fun r => r.date.month == m && r.date.year == y) = [] →
          get_top_artists df (some m) (some y) = []
          ∧ get_top_songs df (some m) (some y) = [] := by
  constructor
  · intro month year
    refine ⟨?_, ?_⟩ <;> (cases month <;> cases year <;> rfl)
  · intro df m y h
    unfold get_top_artists get_top_songs
    have hm : monthYearFilter (some m) (some y) df = [] := h
    rw [hm]
    exact ⟨rfl, rfl⟩

/-- Claim C7, witness: no record of the concrete dataset lies in May 2025,
and the rankings for that month are empty. -/
theorem claim_C7_witness :
    exDataset.filter (fun r => r.date.month == 5 && r.date.year == 2025) = []
    ∧ get_top_artists exDataset (some 5) (some 2025) = []
    ∧ get_top_songs exDataset (some 5) (some 2025) = [] := by
  refine ⟨by decide, ?_⟩
  have h := claim_C7.2 exDataset 5 2025 (by decide)
  exact ⟨h.1, h.2⟩

/-- Claim C8: every ranking entry has rank ≥ 1 and play count ≥ 1, and its
key is the grouping key of some record of the filtered dataset. -/
theorem claim_C8 (df : List PlayRecord) (month year : Option Nat) :
    (∀ e ∈ get_top_artists df month year,
        1 ≤ e.rank ∧ 1 ≤ e.play_count
        ∧ ∃ r ∈ monthYearFilter month year df, r.artist = e.key)
    ∧ (∀ e ∈ get_top_songs df month year,
        1 ≤ e.rank ∧ 1 ≤ e.play_count
        ∧ ∃ r ∈ monthYearFilter month year df, (r.title, r.artist) = e.key) :=
  ⟨fun _ he => ranking_entry_spec he, fun _ he => ranking_entry_spec he⟩

/-- Claim C8, witness: the theorem applied to the rank-1 entry of the
concrete dataset's artist ranking. -/
theorem claim_C8_witness :
    ((⟨1, "a", 1⟩ : RankingEntry String) ∈ get_top_artists exDataset none none)
    ∧ (1 ≤ (⟨1, "a", 1⟩ : RankingEntry String).rank
      ∧ 1 ≤ (⟨1, "a", 1⟩ : RankingEntry String).play_count
      ∧ ∃ r ∈ monthYearFilter none none exDataset,
          r.artist = (⟨1, "a", 1⟩ : RankingEntry String).key) :=
  ⟨by decide, (claim_C8 exDataset none none).1 ⟨1, "a", 1⟩ (by decide)⟩

/-- Claim C9: `get_top_artists` and `get_top_songs` leave the caller's
dataframe unchanged — the state-passing versions return the caller's
dataset as-is alongside the same ranking the plain functions compute. -/
theorem claim_C9 (df : List PlayRecord) (month year : Option Nat) :
    (get_top_artists_full df month year).1 = df
    ∧ (get_top_songs_full df month year).1 = df
    ∧ (get_top_artists_full df month year).2 = get_top_artists df month year
    ∧ (get_top_songs_full df month year).2 = get_top_songs df month year :=
  ⟨rfl, rfl, rfl, rfl⟩

/-- Claim C10: a month without a year (or a year without a month) is
silently ignored: the guard `if month is not None and year is not None`
fails, no filtering happens, and the all-time ranking is returned. -/
theorem claim_C10 (df : List PlayRecord) (month year : Option Nat)
    (h : month = none ∨ year = none) :
    get_top_artists df month year = get_top_artists df none none
    ∧ get_top_songs df month year = get_top_songs df none none := by
  unfold get_top_artists get_top_songs
  rw [monthYearFilter_of_none h, monthYearFilter_of_none (Or.inl rfl)]
  exact ⟨rfl, rfl⟩

/-- Claim C10, witness: a month given without a year on the concrete
dataset yields the all-time rankings. -/
theorem claim_C10_witness :
    ((some 4 : Option Nat) = none ∨ (none : Option Nat) = none)
    ∧ get_top_artists exDataset (some 4) none = get_top_artists exDataset none none
    ∧ get_top_songs exDataset (some 4) none = get_top_songs exDataset none none :=
  ⟨Or.inr rfl, claim_C10 exDataset (some 4) none (Or.inr rfl)⟩

end SpotifySummary
